import Mathlib

/-!
# IPsat dipole amplitude (`MZ_ipsat::DipoleAmplitude`)

A shallow embedding of `src/dipoleamplitude.hpp` / `src/dipoleamplitude.cpp`.

* C++ `double` is idealised as a field `F`, so a quotient is only meaningful where the divisor
  is non-zero. Statements that need order or analysis take `F = ℝ`; the others hold over
  every field.
* Where rounding decides a statement, `Tp` and `N` are evaluated a second time in IEEE-754
  binary64 arithmetic (`Tp_binary64`, `N_binary64`), every operation rounded to nearest;
  infinities and NaN are outside both models.
* The libm entry points used by the source (`std::sqrt`, `std::exp`, `M_PI`) are parameters of
  the definitions that use them; the statements over `ℝ` instantiate them with `Real.sqrt`,
  `Real.exp` and `Real.pi`.
* The classes `AlphaStrong` and `EvolutionLO_gluon` (directory `dglap_cpp/`) are external to the
  two files embedded here; they enter through the records and the interface `Dglap` below.
* The member `alphas_mur` is declared in the header but never written or read; it is left out.
-/

namespace MZ_ipsat

/-! ## External collaborators -/

/-- Modelled from the spec: the coupling model `AlphaStrong` (header `dglap_cpp/AlphaStrong.h`
is missing). An object is the record of its seven constructor arguments
`(initial_flavor_count, matching_scale, reference_scale_Q, reference_alphas, mc, mb, mt)`. -/
structure AlphaStrong (F : Type) where
  initial_flavor_count : Int
  matching_scale : F
  reference_scale_Q : F
  reference_alphas : F
  mc : F
  mb : F
  mt : F

/-- Modelled from the spec: the state of the evolution engine `EvolutionLO_gluon` (header
`dglap_cpp/EvolutionLO_nocoupling.h` is missing): the coupling model it is bound to, the
contents of its lookup table once generated, and the table-in-use switch. -/
structure EvolutionLO_gluon (F T : Type) where
  alphas : AlphaStrong F
  table : Option T
  tableInUse : Bool

/-- Modelled from the spec: the numeric contract of the two missing classes, taken as a parameter.
`value` is `AlphaStrong::value(Q)`; `alphasxG` is the engine query
`alphasxG(x, musqr, mu0, singlet_seed, A_g, lambda_g, As, lambdas)`, an arbitrary function of
the engine state and its arguments; `buildTable` is the table that `generateLookupTable`
computes from the bound coupling model and its six arguments. -/
structure Dglap (F T : Type) where
  value : AlphaStrong F → F → F
  alphasxG : EvolutionLO_gluon F T → F → F → F → Int → F → F → F → F → F
  buildTable : AlphaStrong F → F → Int → F → F → F → F → T

/-- Modelled from the spec: `new EvolutionLO_gluon(alphas)`, an engine bound to `alphas`, with no
table generated and direct evaluation. -/
def EvolutionLO_gluon.new {F T : Type} (alphas : AlphaStrong F) : EvolutionLO_gluon F T :=
  { alphas := alphas, table := none, tableInUse := false }

/-- Modelled from the spec: `generateLookupTable(mu0, singlet_seed, A_g, lambda_g, extra1, extra2)`
builds the interpolation table for that initial condition; the table is a deterministic
function of the arguments (and the bound coupling model) and replaces any earlier table. -/
def EvolutionLO_gluon.generateLookupTable {F T : Type} (dg : Dglap F T)
    (e : EvolutionLO_gluon F T) (mu0 : F) (coupling : Int) (Ag lambdag As lambdas : F) :
    EvolutionLO_gluon F T :=
  { e with table := some (dg.buildTable e.alphas mu0 coupling Ag lambdag As lambdas) }

/-- Modelled from the spec: `useLookupTable(bool)` toggles interpolated versus direct
evaluation and touches nothing else. -/
def EvolutionLO_gluon.useLookupTable {F T : Type} (e : EvolutionLO_gluon F T) (use : Bool) :
    EvolutionLO_gluon F T :=
  { e with tableInUse := use }

/-- Modelled from the spec: the engine query `xG(x, musqr, mu0, singlet_seed, A_g, lambda_g,
extra1, extra2)`, whose body is missing. The header comment on `DipoleAmplitude::xg`
("Only xg, calculated internally as Alphas_xg / Alphas") and spec section 4.4 ("computed as
`Alphas_xg(x, musqr) / Alphas(sqrt(musqr))`, derived, not independently evolved") describe it as
the quotient of the engine's own `alphasxG` at the same arguments by the bound coupling at
`sqrt(musqr)`; `sqrt` is `std::sqrt`. -/
def EvolutionLO_gluon.xG {F T : Type} [Field F] (sqrt : F → F) (dg : Dglap F T)
    (e : EvolutionLO_gluon F T) (x Q2 mu0 : F) (coupling : Int) (Ag lambdag As lambdas : F) : F :=
  dg.alphasxG e x Q2 mu0 coupling Ag lambdag As lambdas / dg.value e.alphas (sqrt Q2)

/-! ## `dipoleamplitude.hpp` -/

/-- The enumeration `IPSAT_PARAMETRIZATION`. -/
inductive IPSAT_PARAMETRIZATION where
  | MZ_IPSAT
  | MZ_IPNONSAT
  deriving DecidableEq, Repr

/-- The private data members of `class DipoleAmplitude`. -/
structure DipoleAmplitude (F T : Type) where
  cppdglap : EvolutionLO_gluon F T
  alphas : AlphaStrong F
  saturation : Bool
  C : F
  mu0 : F
  lambda_g : F
  A_g : F
  mc : F
  mb : F
  mt : F
  B_p : F
  Nc : Int

namespace DipoleAmplitude

variable {F T : Type} [Field F]

/-! ### Constructors (`dipoleamplitude.cpp`, lines 21-60) -/

/-- The constructor `DipoleAmplitude(IPSAT_PARAMETRIZATION mode)`; `sqrt` is `std::sqrt`. -/
def ofMode (sqrt : F → F) (mode : IPSAT_PARAMETRIZATION) : DipoleAmplitude F T :=
  let (C, lambda_g, A_g, mc, mu0, saturation) : F × F × F × F × F × Bool :=
    match mode with
    | .MZ_IPSAT => (2.2894, 0.08289, 2.1953, 1.3528, sqrt 1.1, true)
    | .MZ_IPNONSAT => (4.2974, -0.006657, 3.0391, 1.3504, sqrt 1.1, false)
  let B_p : F := 4.0
  let Nc : Int := 3
  let mb : F := 4.75
  let mt : F := 175
  -- Init alphas(M_Z=91.1876 GeV) = 0.1183
  let alphas : AlphaStrong F := ⟨0, 1.0, 91.1876, 0.1183, mc, mb, mt⟩
  let cppdglap : EvolutionLO_gluon F T := EvolutionLO_gluon.new alphas
  { cppdglap := cppdglap, alphas := alphas, saturation := saturation, C := C, mu0 := mu0,
    lambda_g := lambda_g, A_g := A_g, mc := mc, mb := mb, mt := mt, B_p := B_p, Nc := Nc }

/-- The constructor `DipoleAmplitude(C_, mu0_, lambda_g_, A_g_, mc_, mb_, mt_)`, statement by
statement: line 49 assigns `mb = mb_; mt = mt_;`, lines 53-54 assign `mb=4.75; mt=175;`, and
`alphas` is created afterwards from the members. -/
def ofParams (C_ mu0_ lambda_g_ A_g_ mc_ mb_ mt_ : F) : DipoleAmplitude F T := Id.run do
  let C := C_
  let mu0 := mu0_
  let lambda_g := lambda_g_
  let A_g := A_g_
  let mc := mc_
  let mut mb := mb_
  let mut mt := mt_
  let saturation := true
  let B_p : F := 4.0    -- All fits are done with fixed B_p=4
  let Nc : Int := 3
  mb := 4.75
  mt := 175
  -- Init alphas(M_Z=91.1876 GeV) = 0.1183
  let alphas : AlphaStrong F := ⟨0, 1.0, 91.1876, 0.1183, mc, mb, mt⟩
  let cppdglap : EvolutionLO_gluon F T := EvolutionLO_gluon.new alphas
  return { cppdglap := cppdglap, alphas := alphas, saturation := saturation, C := C, mu0 := mu0,
           lambda_g := lambda_g, A_g := A_g, mc := mc, mb := mb, mt := mt, B_p := B_p, Nc := Nc }

/-- The constructor called with the optional arguments omitted: the header (line 34) declares
`double mb_=4.75, double mt_=175`. -/
def ofParamsDefault (C_ mu0_ lambda_g_ A_g_ mc_ : F) : DipoleAmplitude F T :=
  ofParams C_ mu0_ lambda_g_ A_g_ mc_ 4.75 175

/-! ### Lookup-table control (`dipoleamplitude.cpp`, lines 65-74) -/

/-- Member function `void DipoleAmplitude::EnableLookupTable()`. -/
def EnableLookupTable (dg : Dglap F T) (d : DipoleAmplitude F T) : DipoleAmplitude F T :=
  let e1 := d.cppdglap.generateLookupTable dg d.mu0 0 d.A_g d.lambda_g 0 0
  let e2 := e1.useLookupTable true
  { d with cppdglap := e2 }

/-- Member function `void DipoleAmplitude::DisableLookupTable()`. -/
def DisableLookupTable (d : DipoleAmplitude F T) : DipoleAmplitude F T :=
  { d with cppdglap := d.cppdglap.useLookupTable false }

/-! ### Queries (`dipoleamplitude.cpp`, lines 81-118) -/

/-- Member function `double DipoleAmplitude::Alphas_xg(double x, double musqr)`. The locals `as_xg` and
`coupling` of the source are never used. -/
def Alphas_xg (dg : Dglap F T) (d : DipoleAmplitude F T) (x musqr : F) : F :=
  let As : F := 0
  let lambdas : F := 0 -- singlet
  dg.alphasxG d.cppdglap x musqr d.mu0 0 d.A_g d.lambda_g As lambdas

/-- Member function `double DipoleAmplitude::Alphas(double Q)`. -/
def Alphas (dg : Dglap F T) (d : DipoleAmplitude F T) (Q : F) : F :=
  dg.value d.alphas Q

/-- Member function `double DipoleAmplitude::xg(double x, double musqr)`: one call of the engine's `xG`. -/
def xg (sqrt : F → F) (dg : Dglap F T) (d : DipoleAmplitude F T) (x musqr : F) : F :=
  d.cppdglap.xG sqrt dg x musqr d.mu0 0 d.A_g d.lambda_g 0 0

/-- Member function `double DipoleAmplitude::Tp(double b)`; `exp` is `std::exp`, `M_PI` the libm constant. -/
def Tp (exp : F → F) (M_PI : F) (d : DipoleAmplitude F T) (b : F) : F :=
  1.0 / (2.0 * M_PI * d.B_p) * exp (-b * b / (2.0 * d.B_p))

/-- Member function `double DipoleAmplitude::N(double r, double xbj, double b)`. -/
def N (exp : F → F) (M_PI : F) (dg : Dglap F T) (d : DipoleAmplitude F T) (r xbj b : F) : F :=
  let musqr := d.mu0 * d.mu0 + d.C / (r * r)
  let exponent :=
    M_PI * M_PI / (2.0 * (d.Nc : F)) * r * r * Alphas_xg dg d xbj musqr * Tp exp M_PI d b
  if !d.saturation then -- IPnonsat
    exponent
  else
    1.0 - exp (-exponent)

/-! ### Accessors (`dipoleamplitude.hpp`, lines 76-83) -/

/-- Accessor `double GetMu0() { return mu0; }` -/
def GetMu0 (d : DipoleAmplitude F T) : F := d.mu0
/-- Accessor `double GetLambdaG() { return lambda_g; }` -/
def GetLambdaG (d : DipoleAmplitude F T) : F := d.lambda_g
/-- Accessor `double GetAg() { return A_g; }` -/
def GetAg (d : DipoleAmplitude F T) : F := d.A_g
/-- Accessor `double GetMc() { return mc; }` -/
def GetMc (d : DipoleAmplitude F T) : F := d.mc
/-- Accessor `double GetMb() { return mb; }` -/
def GetMb (d : DipoleAmplitude F T) : F := d.mb
/-- Accessor `double GetMt() { return mt; }` -/
def GetMt (d : DipoleAmplitude F T) : F := d.mt
/-- Accessor `bool GetSaturation() { return saturation; }` -/
def GetSaturation (d : DipoleAmplitude F T) : Bool := d.saturation
/-- Accessor `void SetSaturation(bool s) { saturation = s; }` -/
def SetSaturation (d : DipoleAmplitude F T) (s : Bool) : DipoleAmplitude F T :=
  { d with saturation := s }


/-! ### The object as a state machine -/

/-- The fit parameters `{C, mu0, lambda_g, A_g, mc, mb, mt, B_p, Nc}` of an instance. -/
structure FitParameters (F : Type) where
  C : F
  mu0 : F
  lambda_g : F
  A_g : F
  mc : F
  mb : F
  mt : F
  B_p : F
  Nc : Int

/-- The fit parameters held by an instance. -/
def fitParameters (d : DipoleAmplitude F T) : FitParameters F :=
  ⟨d.C, d.mu0, d.lambda_g, d.A_g, d.mc, d.mb, d.mt, d.B_p, d.Nc⟩

/-- A call of one of the two public constructors. -/
inductive Ctor (F : Type) where
  | mode (m : IPSAT_PARAMETRIZATION)
  | params (C_ mu0_ lambda_g_ A_g_ mc_ mb_ mt_ : F)

/-- A call of one public member function on an existing instance, with its arguments. -/
inductive Call (F : Type) where
  | EnableLookupTable
  | DisableLookupTable
  | Alphas_xg (x musqr : F)
  | Alphas (Q : F)
  | xg (x musqr : F)
  | N (r xbj b : F)
  | Tp (b : F)
  | GetMu0
  | GetLambdaG
  | GetAg
  | GetMc
  | GetMb
  | GetMt
  | GetSaturation
  | SetSaturation (s : Bool)

/-- What a public member function hands back. -/
inductive Ret (F : Type) where
  | void
  | double (v : F)
  | bool (v : Bool)

section Machine

variable (sqrt exp : F → F) (M_PI : F) (dg : Dglap F T)

/-- The object built by a constructor call. -/
def Ctor.run : Ctor F → DipoleAmplitude F T
  | .mode m => ofMode sqrt m
  | .params C_ mu0_ lambda_g_ A_g_ mc_ mb_ mt_ => ofParams C_ mu0_ lambda_g_ A_g_ mc_ mb_ mt_

/-- One public call: the value handed back and the instance afterwards. Only
`EnableLookupTable`, `DisableLookupTable` and `SetSaturation` have a body that assigns
anything. -/
def Call.exec : Call F → DipoleAmplitude F T → Ret F × DipoleAmplitude F T
  | .EnableLookupTable, d => (.void, d.EnableLookupTable dg)
  | .DisableLookupTable, d => (.void, d.DisableLookupTable)
  | .Alphas_xg x musqr, d => (.double (d.Alphas_xg dg x musqr), d)
  | .Alphas Q, d => (.double (d.Alphas dg Q), d)
  | .xg x musqr, d => (.double (d.xg sqrt dg x musqr), d)
  | .N r xbj b, d => (.double (d.N exp M_PI dg r xbj b), d)
  | .Tp b, d => (.double (d.Tp exp M_PI b), d)
  | .GetMu0, d => (.double d.GetMu0, d)
  | .GetLambdaG, d => (.double d.GetLambdaG, d)
  | .GetAg, d => (.double d.GetAg, d)
  | .GetMc, d => (.double d.GetMc, d)
  | .GetMb, d => (.double d.GetMb, d)
  | .GetMt, d => (.double d.GetMt, d)
  | .GetSaturation, d => (.bool d.GetSaturation, d)
  | .SetSaturation s, d => (.void, d.SetSaturation s)

/-- The instance after a sequence of public calls, first call first. -/
def runCalls : List (Call F) → DipoleAmplitude F T → DipoleAmplitude F T
  | [], d => d
  | c :: cs, d => runCalls cs (c.exec sqrt exp M_PI dg d).2

/-- An instance as a client can obtain it: one constructor call, then any public calls. -/
def build (k : Ctor F) (cs : List (Call F)) : DipoleAmplitude F T :=
  runCalls sqrt exp M_PI dg cs (k.run sqrt)

/-- The outcome of the call `N(r, xbj, b)` for a dipole size `r ≠ 0`, as seen by the caller:
`Except.ok v` when the call returns `v`, `Except.error` when it signals a condition. The body
(lines 101-111) has no `throw`, no assertion and no test on `r`; both branches end in `return`,
and the engine query is taken to return its value. The size `r = 0`, where `C / (r*r)` divides
by zero, is outside the definition. -/
def N_call (d : DipoleAmplitude F T) (r xbj b : F) (_ : r ≠ 0) : Except String F :=
  .ok (d.N exp M_PI dg r xbj b)

end Machine

/-- A stand-in engine for evaluating the definitions: constant coupling `a`, constant
`alphasxG` value `g`, and a table that records the initial condition it was generated for. -/
def constEngine (a g : F) : Dglap F (F × Int × F × F × F × F) where
  value := fun _ _ => a
  alphasxG := fun _ _ _ _ _ _ _ _ _ => g
  buildTable := fun _ mu0 c Ag lg As ls => (mu0, c, Ag, lg, As, ls)

/-- Spec section 4.5, steps 1-2, in the spec's words:
`exponent = (π² / (2·Nc)) · r² · Alphas_xg(xbj, musqr) · Tp(b)` with `musqr = mu0² + C / r²`,
`Alphas_xg` the engine's `alphasxG` at the initial condition `(mu0, 0, A_g, lambda_g, 0, 0)` and
`Tp(b) = 1/(2π·B_p) · exp(−b² / (2·B_p))`. -/
def spec_exponent (exp : F → F) (pi : F) (dg : Dglap F T) (d : DipoleAmplitude F T)
    (r xbj b : F) : F :=
  (pi ^ 2 / (2 * (d.Nc : F))) * r ^ 2
    * dg.alphasxG d.cppdglap xbj (d.mu0 ^ 2 + d.C / r ^ 2) d.mu0 0 d.A_g d.lambda_g 0 0
    * (1 / (2 * pi * d.B_p) * exp (-b ^ 2 / (2 * d.B_p)))

/-- The consistency of an instance with its engine: the engine is bound to the instance's own
coupling model, a table, once present, is the one for the instance's initial condition
`(mu0, 0, A_g, lambda_g, 0, 0)`, and the table is in use only when present. -/
def Consistent (dg : Dglap F T) (d : DipoleAmplitude F T) : Prop :=
  d.cppdglap.alphas = d.alphas ∧
  (d.cppdglap.table = none ∨
    d.cppdglap.table = some (dg.buildTable d.alphas d.mu0 0 d.A_g d.lambda_g 0 0)) ∧
  (d.cppdglap.tableInUse = false ∨
    d.cppdglap.table = some (dg.buildTable d.alphas d.mu0 0 d.A_g d.lambda_g 0 0))

/-! ### Evaluation in binary64 arithmetic

The source computes in C++ `double`. The definitions below repeat `Tp` and `N` with every
arithmetic operation rounded as IEEE-754 binary64 prescribes (round to nearest, ties to even);
a finite double is the rational number it denotes. Infinities and NaN are not represented, so
these definitions speak for the code where no operation overflows and no divisor is zero. -/

/-- Rounding of a rational to the nearest integer, a tie going to the even neighbour. -/
def roundHalfEven (q : ℚ) : Int :=
  let f := ⌊q⌋
  if q - f < 1 / 2 then f
  else if 1 / 2 < q - f then f + 1
  else if f % 2 = 0 then f else f + 1

/-- The exponent `k` of the spacing `2^k` of the binary64 values around `q`: 53 significant bits
in the normal range, the fixed spacing `2^-1074` below `2^-1022`. -/
def quantumExp (q : ℚ) : Int := max (Int.log 2 |q| - 52) (-1074)

/-- The binary64 value nearest to the exact result `q` (round to nearest, ties to even). -/
def round64 (q : ℚ) : ℚ := (roundHalfEven (q / 2 ^ quantumExp q) : ℚ) * 2 ^ quantumExp q

/-- The `double` sum `a + b`. -/
def add64 (a b : ℚ) : ℚ := round64 (a + b)
/-- The `double` difference `a - b`. -/
def sub64 (a b : ℚ) : ℚ := round64 (a - b)
/-- The `double` product `a * b`. -/
def mul64 (a b : ℚ) : ℚ := round64 (a * b)
/-- The `double` quotient `a / b`. -/
def div64 (a b : ℚ) : ℚ := round64 (a / b)

/-- The constant `M_PI` of `<cmath>`, the double nearest to `3.14159265358979323846`. -/
def M_PI64 : ℚ := round64 3.14159265358979323846

/-- The members of an instance as the doubles they are stored in. -/
def toBinary64 (d : DipoleAmplitude ℚ T) : DipoleAmplitude ℚ T :=
  { d with
    C := round64 d.C, mu0 := round64 d.mu0, lambda_g := round64 d.lambda_g,
    A_g := round64 d.A_g, mc := round64 d.mc, mb := round64 d.mb, mt := round64 d.mt,
    B_p := round64 d.B_p }

/-- The body of `Tp` (line 117) in binary64: `1.0/(2.0*M_PI*B_p) * std::exp(-b*b / (2.0*B_p))`,
with `exp64` the libm `std::exp` on doubles. -/
def Tp_binary64 (exp64 : ℚ → ℚ) (d : DipoleAmplitude ℚ T) (b : ℚ) : ℚ :=
  let d := toBinary64 d
  let b := round64 b
  mul64 (div64 1.0 (mul64 (mul64 2.0 M_PI64) d.B_p))
    (exp64 (div64 (mul64 (-b) b) (mul64 2.0 d.B_p)))

/-- The local `exponent` of `N` (lines 103-104) in binary64:
`musqr = mu0*mu0 + C / (r*r)` and
`exponent = M_PI*M_PI / (2.0 * Nc) * r*r * Alphas_xg(xbj, musqr) * Tp(b)`, the products taken
from left to right. -/
def exponent_binary64 (exp64 : ℚ → ℚ) (dg : Dglap ℚ T) (d : DipoleAmplitude ℚ T)
    (r xbj b : ℚ) : ℚ :=
  let d := toBinary64 d
  let r := round64 r
  let xbj := round64 xbj
  let b := round64 b
  let musqr := add64 (mul64 d.mu0 d.mu0) (div64 d.C (mul64 r r))
  mul64
    (mul64
      (mul64 (mul64 (div64 (mul64 M_PI64 M_PI64) (mul64 2.0 (round64 (d.Nc : ℚ)))) r) r)
      (Alphas_xg dg d xbj musqr))
    (Tp_binary64 exp64 d b)

/-- The body of `N` (lines 101-111) in binary64. -/
def N_binary64 (exp64 : ℚ → ℚ) (dg : Dglap ℚ T) (d : DipoleAmplitude ℚ T) (r xbj b : ℚ) : ℚ :=
  let exponent := exponent_binary64 exp64 dg d r xbj b
  if !d.saturation then -- IPnonsat
    exponent
  else
    sub64 1.0 (exp64 (-exponent))

/-- A stand-in for `std::sqrt` on doubles, giving the double `sqrt(1.1)` the presets ask for. -/
def sqrt_value (_ : ℚ) : ℚ := 4723415137801974 / 2 ^ 52

/-- A stand-in for `std::exp` on doubles, holding the two values met when `N(100, 0.001, 1)`
is evaluated on a preset with a unit engine value:
`exp(-0.125) = 0.8824969025845955 = 7948825443271202 · 2^-53` and
`exp(-577.5928720782318) = 1.4275879377442855e-251 = 7365106447515123 · 2^-886`;
every other argument is answered with `exp(0) = 1`. The two values are checked against the
real exponential in `exp_values_sound`. -/
def exp_values (y : ℚ) : ℚ :=
  if y = -1 / 8 then 7948825443271202 / 2 ^ 53
  else if y = -(5080560631764413 / 2 ^ 43) then 7365106447515123 / 2 ^ 886
  else 1

/-! ## Properties -/

section Lemmas

/-- The quantity called `exponent` in the body of `N` is the spec's exponent. -/
theorem exponent_eq_spec (exp : F → F) (M_PI : F) (dg : Dglap F T) (d : DipoleAmplitude F T)
    (r xbj b : F) :
    M_PI * M_PI / (2.0 * (d.Nc : F)) * r * r
        * Alphas_xg dg d xbj (d.mu0 * d.mu0 + d.C / (r * r)) * Tp exp M_PI d b
      = spec_exponent exp M_PI dg d r xbj b := by
  have h2 : (2.0 : F) = 2 := by norm_num
  have h1 : (1.0 : F) = 1 := by norm_num
  have hb : -b * b / (2 * d.B_p) = -b ^ 2 / (2 * d.B_p) := by ring
  have hm : d.mu0 * d.mu0 + d.C / (r * r) = d.mu0 ^ 2 + d.C / r ^ 2 := by ring
  simp only [spec_exponent, Alphas_xg, Tp, h2, h1, hb, hm]
  ring

/-- With the saturation flag off, `N` returns its `exponent`. -/
theorem N_of_saturation_false (exp : F → F) (M_PI : F) (dg : Dglap F T)
    (d : DipoleAmplitude F T) (hs : d.saturation = false) (r xbj b : F) :
    N exp M_PI dg d r xbj b = spec_exponent exp M_PI dg d r xbj b := by
  rw [← exponent_eq_spec]
  simp [N, hs]

/-- With the saturation flag on, `N` returns `1 - exp(-exponent)`. -/
theorem N_of_saturation_true (exp : F → F) (M_PI : F) (dg : Dglap F T)
    (d : DipoleAmplitude F T) (hs : d.saturation = true) (r xbj b : F) :
    N exp M_PI dg d r xbj b = 1 - exp (-spec_exponent exp M_PI dg d r xbj b) := by
  rw [← exponent_eq_spec]
  have h1 : (1.0 : F) = 1 := by norm_num
  simp [N, hs, h1]

/-- The radial integrand of the profile has the primitive `-exp(-b²/(2B))`. -/
theorem integral_gaussian_radial (B : ℝ) (hB : 0 < B) :
    ∫ b in Set.Ioi (0 : ℝ), b / B * Real.exp (-b ^ 2 / (2 * B)) = 1 := by
  have hB0 : B ≠ 0 := hB.ne'
  have hderiv : ∀ x ∈ Set.Ici (0 : ℝ),
      HasDerivAt (fun b : ℝ => -Real.exp (-b ^ 2 / (2 * B)))
        (x / B * Real.exp (-x ^ 2 / (2 * B))) x := by
    intro x _
    have hin : HasDerivAt (fun b : ℝ => -b ^ 2 / (2 * B)) (-(2 * x) / (2 * B)) x := by
      simpa using ((hasDerivAt_pow 2 x).neg).div_const (2 * B)
    convert (hin.exp).neg using 1
    field_simp
    ring
  have hnonneg : ∀ x ∈ Set.Ioi (0 : ℝ), 0 ≤ x / B * Real.exp (-x ^ 2 / (2 * B)) := by
    intro x hx
    have hx0 : (0 : ℝ) < x := hx
    positivity
  have hlim : Filter.Tendsto (fun b : ℝ => -Real.exp (-b ^ 2 / (2 * B))) Filter.atTop
      (nhds (-0)) := by
    refine Filter.Tendsto.neg (Real.tendsto_exp_atBot.comp ?_)
    have hsq : Filter.Tendsto (fun b : ℝ => b ^ 2) Filter.atTop Filter.atTop :=
      Filter.tendsto_pow_atTop two_ne_zero
    have hneg : -(1 / (2 * B)) < 0 := by
      have : 0 < 1 / (2 * B) := by positivity
      linarith
    refine (hsq.const_mul_atTop_of_neg hneg).congr (fun b => ?_)
    field_simp
  rw [MeasureTheory.integral_Ioi_of_hasDerivAt_of_nonneg' hderiv hnonneg hlim]
  simp

/-- The polar integrand `2π·b·Tp(b)` of an instance, simplified. -/
theorem polar_integrand_eq (d : DipoleAmplitude ℝ T) (hB : 0 < d.B_p) (b : ℝ) :
    2 * Real.pi * b * Tp Real.exp Real.pi d b
      = b / d.B_p * Real.exp (-b ^ 2 / (2 * d.B_p)) := by
  have hB0 : d.B_p ≠ 0 := hB.ne'
  have hb : -b * b / (2 * d.B_p) = -b ^ 2 / (2 * d.B_p) := by ring
  have h2 : (2.0 : ℝ) = 2 := by norm_num
  have h1 : (1.0 : ℝ) = 1 := by norm_num
  simp only [Tp, h2, h1, hb]
  field_simp [Real.pi_ne_zero]
  ring

/-- The profile of an instance with `B_p > 0` integrates to one over the plane. -/
theorem integral_Tp_of_pos (d : DipoleAmplitude ℝ T) (hB : 0 < d.B_p) :
    ∫ b in Set.Ici (0 : ℝ), 2 * Real.pi * b * Tp Real.exp Real.pi d b = 1 := by
  rw [MeasureTheory.integral_Ici_eq_integral_Ioi]
  simp only [polar_integrand_eq d hB]
  exact integral_gaussian_radial d.B_p hB

/-- Both constructors fix `B_p = 4`. -/
theorem B_p_run (sqrt : F → F) (k : Ctor F) : (k.run sqrt : DipoleAmplitude F T).B_p = 4 := by
  cases k with
  | mode m => cases m <;> norm_num [Ctor.run, ofMode]
  | params => norm_num [Ctor.run, ofParams, Id.run]

/-- The spec's exponent is non-negative when the engine value, `Nc` and `B_p` are. -/
theorem spec_exponent_nonneg (dg : Dglap ℝ T) (d : DipoleAmplitude ℝ T) (r xbj b : ℝ)
    (hN : 0 ≤ d.Nc) (hB : 0 ≤ d.B_p)
    (hg : 0 ≤ dg.alphasxG d.cppdglap xbj (d.mu0 ^ 2 + d.C / r ^ 2) d.mu0 0 d.A_g d.lambda_g 0 0) :
    0 ≤ spec_exponent Real.exp Real.pi dg d r xbj b := by
  have hN' : (0 : ℝ) ≤ (d.Nc : ℝ) := by exact_mod_cast hN
  have hpi : 0 ≤ Real.pi := Real.pi_pos.le
  unfold spec_exponent
  positivity

/-- No public call changes the fit parameters. -/
theorem fitParameters_exec (sqrt exp : F → F) (M_PI : F) (dg : Dglap F T) (c : Call F)
    (d : DipoleAmplitude F T) :
    (c.exec sqrt exp M_PI dg d).2.fitParameters = d.fitParameters := by
  cases c <;> rfl

/-- No sequence of public calls changes the fit parameters. -/
theorem fitParameters_runCalls (sqrt exp : F → F) (M_PI : F) (dg : Dglap F T)
    (cs : List (Call F)) (d : DipoleAmplitude F T) :
    (runCalls sqrt exp M_PI dg cs d).fitParameters = d.fitParameters := by
  induction cs generalizing d with
  | nil => rfl
  | cons c cs ih => rw [runCalls, ih, fitParameters_exec]

/-- Both constructors deliver a consistent instance. -/
theorem consistent_run (sqrt : F → F) (dg : Dglap F T) (k : Ctor F) :
    Consistent dg (k.run sqrt) := by
  cases k with
  | mode m => cases m <;> exact ⟨rfl, Or.inl rfl, Or.inl rfl⟩
  | params => exact ⟨rfl, Or.inl rfl, Or.inl rfl⟩

/-- Every public call keeps the instance consistent. -/
theorem consistent_exec (sqrt exp : F → F) (M_PI : F) (dg : Dglap F T) (c : Call F)
    (d : DipoleAmplitude F T) (h : Consistent dg d) :
    Consistent dg (c.exec sqrt exp M_PI dg d).2 := by
  obtain ⟨ha, ht, hu⟩ := h
  cases c with
  | EnableLookupTable =>
    have htab : (d.EnableLookupTable dg).cppdglap.table
        = some (dg.buildTable d.alphas d.mu0 0 d.A_g d.lambda_g 0 0) := by
      simp [EnableLookupTable, EvolutionLO_gluon.generateLookupTable,
        EvolutionLO_gluon.useLookupTable, ha]
    exact ⟨ha, Or.inr htab, Or.inr htab⟩
  | DisableLookupTable => exact ⟨ha, ht, Or.inl rfl⟩
  | _ => exact ⟨ha, ht, hu⟩

/-- Every instance a client can obtain is consistent. -/
theorem consistent_build (sqrt exp : F → F) (M_PI : F) (dg : Dglap F T) (k : Ctor F)
    (cs : List (Call F)) : Consistent dg (build sqrt exp M_PI dg k cs) := by
  have key : ∀ (cs : List (Call F)) (d : DipoleAmplitude F T), Consistent dg d →
      Consistent dg (runCalls sqrt exp M_PI dg cs d) := by
    intro cs
    induction cs with
    | nil => exact fun d h => h
    | cons c cs ih => exact fun d h => ih _ (consistent_exec sqrt exp M_PI dg c d h)
  exact key cs _ (consistent_run sqrt dg k)

/-- The value of `N` depends on `r` only through `r*r`. -/
theorem N_neg (exp : F → F) (M_PI : F) (dg : Dglap F T) (d : DipoleAmplitude F T)
    (r xbj b : F) : N exp M_PI dg d (-r) xbj b = N exp M_PI dg d r xbj b := by
  have hrr : -r * -r = r * r := by ring
  have hE : ∀ A : F, M_PI * M_PI / (2.0 * (d.Nc : F)) * -r * -r * A
      = M_PI * M_PI / (2.0 * (d.Nc : F)) * r * r * A := fun A => by ring
  simp only [N, hrr, hE]

/-! #### Binary64 rounding -/

/-- An integer within `1/2` of `q` is what `roundHalfEven` returns. -/
theorem roundHalfEven_eq (q : ℚ) (m : ℤ) (h : |q - m| < 1 / 2) : roundHalfEven q = m := by
  rw [abs_lt] at h
  obtain ⟨h1, h2⟩ := h
  have hfl : ⌊q⌋ = m ∨ ⌊q⌋ = m - 1 := by
    have ha : m - 1 ≤ ⌊q⌋ := by
      rw [Int.le_floor]; push_cast; linarith
    have hb : ⌊q⌋ ≤ m := by
      have : ⌊q⌋ < m + 1 := by
        rw [Int.floor_lt]; push_cast; linarith
      omega
    omega
  have hf1 := Int.floor_le q
  have hf2 := Int.lt_floor_add_one q
  unfold roundHalfEven
  rcases hfl with hf | hf
  · simp only [hf]
    rw [if_pos (by linarith)]
  · simp only [hf]
    rw [hf] at hf1 hf2
    push_cast at hf1 hf2 ⊢
    rw [if_neg (by linarith), if_pos (by linarith)]
    ring

/-- The spacing exponent of a value in the binade `[2^(k+52), 2^(k+53))`, `k ≥ -1074`. -/
theorem quantumExp_eq (q : ℚ) (k : ℤ) (hk : -1074 ≤ k) (hlo : (2 : ℚ) ^ (k + 52) ≤ |q|)
    (hhi : |q| < (2 : ℚ) ^ (k + 53)) : quantumExp q = k := by
  have hpos : 0 < |q| := lt_of_lt_of_le (by positivity) hlo
  have h1 : k + 52 ≤ Int.log 2 |q| := by
    rw [← Int.zpow_le_iff_le_log (by norm_num) hpos]; exact_mod_cast hlo
  have h2 : Int.log 2 |q| < k + 53 := by
    rw [← Int.lt_zpow_iff_log_lt (by norm_num) hpos]; exact_mod_cast hhi
  unfold quantumExp
  omega

/-- Evaluation of `round64`: in the binade of spacing `2^k`, the multiple `m·2^k` within half a
spacing of `q` is the rounded value. -/
theorem round64_eq (q : ℚ) (m k : ℤ) (hk : -1074 ≤ k) (hlo : (2 : ℚ) ^ (k + 52) ≤ |q|)
    (hhi : |q| < (2 : ℚ) ^ (k + 53)) (hnear : |q / 2 ^ k - m| < 1 / 2) :
    round64 q = m * 2 ^ k := by
  unfold round64
  rw [quantumExp_eq q k hk hlo hhi, roundHalfEven_eq _ m hnear]

/-- Rounding a non-negative rational to an integer gives a non-negative integer. -/
theorem roundHalfEven_nonneg (q : ℚ) (h : 0 ≤ q) : 0 ≤ roundHalfEven q := by
  have hf : 0 ≤ ⌊q⌋ := Int.floor_nonneg.mpr h
  unfold roundHalfEven
  simp only
  split_ifs <;> omega

/-- Rounding does not pass an integer upper bound. -/
theorem roundHalfEven_le (q : ℚ) (n : ℤ) (h : q ≤ n) : roundHalfEven q ≤ n := by
  have hf : ⌊q⌋ ≤ n := by
    have hfl := Int.floor_le q
    have hlt : (⌊q⌋ : ℚ) < ((n + 1 : ℤ) : ℚ) := by
      push_cast
      linarith
    have := Int.cast_lt.mp hlt
    omega
  rcases hf.eq_or_lt with heq | hlt
  · have hq : q - ⌊q⌋ < 1 / 2 := by
      rw [heq]
      linarith
    unfold roundHalfEven
    simp only
    rw [if_pos hq, heq]
  · unfold roundHalfEven
    simp only
    split_ifs <;> omega

/-- Rounding to binary64 keeps a non-negative value non-negative. -/
theorem round64_nonneg (q : ℚ) (h : 0 ≤ q) : 0 ≤ round64 q := by
  unfold round64
  have h1 : (0 : ℚ) ≤ q / 2 ^ quantumExp q := by positivity
  have h2 := roundHalfEven_nonneg _ h1
  have h3 : (0 : ℚ) ≤ (roundHalfEven (q / 2 ^ quantumExp q) : ℚ) := by exact_mod_cast h2
  positivity

/-- Up to magnitude one the spacing exponent is not positive. -/
theorem quantumExp_nonpos (q : ℚ) (h : |q| ≤ 1) : quantumExp q ≤ 0 := by
  have : Int.log 2 |q| ≤ 0 := by
    rw [Int.log_of_right_le_one 2 h]
    omega
  unfold quantumExp
  omega

/-- Rounding to binary64 keeps a value of `[0, 1]` at most one. -/
theorem round64_le_one (q : ℚ) (h0 : 0 ≤ q) (h1 : q ≤ 1) : round64 q ≤ 1 := by
  have hk : quantumExp q ≤ 0 := quantumExp_nonpos q (by rw [abs_of_nonneg h0]; exact h1)
  obtain ⟨n, hn⟩ : ∃ n : ℕ, quantumExp q = -(n : ℤ) := ⟨(-quantumExp q).toNat, by omega⟩
  unfold round64
  rw [hn]
  have hpow : (2 : ℚ) ^ (-(n : ℤ)) = 1 / 2 ^ n := by
    rw [zpow_neg, zpow_natCast, one_div]
  rw [hpow]
  have hp : (0 : ℚ) < 2 ^ n := by positivity
  have hle : q / (1 / 2 ^ n) ≤ ((2 ^ n : ℤ) : ℚ) := by
    rw [div_div_eq_mul_div, div_one]
    push_cast
    nlinarith
  have hr := roundHalfEven_le _ _ hle
  have hr2 : (roundHalfEven (q / (1 / 2 ^ n)) : ℚ) ≤ 2 ^ n := by exact_mod_cast hr
  rw [mul_one_div, div_le_one hp]
  exact hr2

/-- Subtracting less than `2^-54` from one is absorbed: the difference rounds to `1`. -/
theorem round64_one_sub (y : ℚ) (h0 : 0 ≤ y) (h1 : y < 1 / 2 ^ 54) : round64 (1 - y) = 1 := by
  rcases h0.eq_or_lt with h | h
  · rw [← h, sub_zero, round64_eq 1 (2 ^ 52) (-52) (by norm_num) (by norm_num) (by norm_num)
      (by norm_num)]
    norm_num
  · have hb : (1 : ℚ) / 2 ^ 54 < 1 / 2 := by norm_num
    have hq0 : 0 < 1 - y := by linarith
    rw [round64_eq (1 - y) (2 ^ 53) (-53) (by norm_num)
      (by rw [abs_of_pos hq0]; norm_num; linarith)
      (by rw [abs_of_pos hq0]; norm_num; linarith)
      (by
        rw [abs_lt]
        norm_num
        constructor <;> nlinarith)]
    norm_num

/-- The double chain of `exponent` at the driver point `(100, 0.001, 1)` on the SATURATED preset
with a unit engine value, operation by operation: `M_PI*M_PI`, `/6`, `*100`, `*100`, `*1`,
then `Tp(1) = 0.0351134360774063` and the product `577.5928720782318`. -/
theorem exponent_binary64_driver : exponent_binary64 exp_values (constEngine 0.2 1)
    (EnableLookupTable (constEngine 0.2 1) (ofMode sqrt_value .MZ_IPSAT)) 100 0.001 1
      = 5080560631764413 / 2 ^ 43 := by
  have hpi : round64 (3.14159265358979323846) = 7074237752028440 / 2 ^ 51 := by
    rw [round64_eq (3.14159265358979323846) (7074237752028440) (-51) (by norm_num) (by norm_num [abs_of_pos])
      (by norm_num [abs_of_pos]) (by norm_num [abs_lt])]
    norm_num
  have h3 : round64 (((3 : ℤ) : ℚ)) = 3 := by
    rw [round64_eq (((3 : ℤ) : ℚ)) (6755399441055744) (-51) (by norm_num) (by norm_num [abs_of_pos])
      (by norm_num [abs_of_pos]) (by norm_num [abs_lt])]
    norm_num
  have h6 : round64 (2.0 * 3) = 6 := by
    rw [round64_eq (2.0 * 3) (6755399441055744) (-50) (by norm_num) (by norm_num [abs_of_pos])
      (by norm_num [abs_of_pos]) (by norm_num [abs_lt])]
    norm_num
  have h100 : round64 (100) = 100 := by
    rw [round64_eq (100) (7036874417766400) (-46) (by norm_num) (by norm_num [abs_of_pos])
      (by norm_num [abs_of_pos]) (by norm_num [abs_lt])]
    norm_num
  have h4a : round64 (4.0) = 4 := by
    rw [round64_eq (4.0) (4503599627370496) (-50) (by norm_num) (by norm_num [abs_of_pos])
      (by norm_num [abs_of_pos]) (by norm_num [abs_lt])]
    norm_num
  have h4 : round64 (4) = 4 := by
    rw [round64_eq (4) (4503599627370496) (-50) (by norm_num) (by norm_num [abs_of_pos])
      (by norm_num [abs_of_pos]) (by norm_num [abs_lt])]
    norm_num
  have h1 : round64 (1) = 1 := by
    rw [round64_eq (1) (4503599627370496) (-52) (by norm_num) (by norm_num [abs_of_pos])
      (by norm_num [abs_of_pos]) (by norm_num [abs_lt])]
    norm_num
  have hp2 : round64 (7074237752028440 / 2 ^ 51 * (7074237752028440 / 2 ^ 51)) = 5556093337880030 / 2 ^ 49 := by
    rw [round64_eq (7074237752028440 / 2 ^ 51 * (7074237752028440 / 2 ^ 51)) (5556093337880030) (-49) (by norm_num) (by norm_num [abs_of_pos])
      (by norm_num [abs_of_pos]) (by norm_num [abs_lt])]
    norm_num
  have hq : round64 (5556093337880030 / 2 ^ 49 / 6) = 7408124450506707 / 2 ^ 52 := by
    rw [round64_eq (5556093337880030 / 2 ^ 49 / 6) (7408124450506707) (-52) (by norm_num) (by norm_num [abs_of_pos])
      (by norm_num [abs_of_pos]) (by norm_num [abs_lt])]
    norm_num
  have hqr : round64 (7408124450506707 / 2 ^ 52 * 100) = 5787597226958365 / 2 ^ 45 := by
    rw [round64_eq (7408124450506707 / 2 ^ 52 * 100) (5787597226958365) (-45) (by norm_num) (by norm_num [abs_of_pos])
      (by norm_num [abs_of_pos]) (by norm_num [abs_lt])]
    norm_num
  have hqrr : round64 (5787597226958365 / 2 ^ 45 * 100) = 4521560333561223 / 2 ^ 38 := by
    rw [round64_eq (5787597226958365 / 2 ^ 45 * 100) (4521560333561223) (-38) (by norm_num) (by norm_num [abs_of_pos])
      (by norm_num [abs_of_pos]) (by norm_num [abs_lt])]
    norm_num
  have hg : round64 (4521560333561223 / 2 ^ 38 * 1) = 4521560333561223 / 2 ^ 38 := by
    rw [round64_eq (4521560333561223 / 2 ^ 38 * 1) (4521560333561223) (-38) (by norm_num) (by norm_num [abs_of_pos])
      (by norm_num [abs_of_pos]) (by norm_num [abs_lt])]
    norm_num
  have h2pi : round64 (2.0 * (7074237752028440 / 2 ^ 51)) = 7074237752028440 / 2 ^ 50 := by
    rw [round64_eq (2.0 * (7074237752028440 / 2 ^ 51)) (7074237752028440) (-50) (by norm_num) (by norm_num [abs_of_pos])
      (by norm_num [abs_of_pos]) (by norm_num [abs_lt])]
    norm_num
  have h2piB : round64 (7074237752028440 / 2 ^ 50 * 4) = 7074237752028440 / 2 ^ 48 := by
    rw [round64_eq (7074237752028440 / 2 ^ 50 * 4) (7074237752028440) (-48) (by norm_num) (by norm_num [abs_of_pos])
      (by norm_num [abs_of_pos]) (by norm_num [abs_lt])]
    norm_num
  have hinv : round64 (1.0 / (7074237752028440 / 2 ^ 48)) = 5734161139222659 / 2 ^ 57 := by
    rw [round64_eq (1.0 / (7074237752028440 / 2 ^ 48)) (5734161139222659) (-57) (by norm_num) (by norm_num [abs_of_pos])
      (by norm_num [abs_of_pos]) (by norm_num [abs_lt])]
    norm_num
  have hnb : round64 (-1 * 1) = -1 := by
    rw [round64_eq (-1 * 1) (-4503599627370496) (-52) (by norm_num) (by norm_num [abs_of_pos])
      (by norm_num [abs_of_pos]) (by norm_num [abs_lt])]
    norm_num
  have h8 : round64 (2.0 * 4) = 8 := by
    rw [round64_eq (2.0 * 4) (4503599627370496) (-49) (by norm_num) (by norm_num [abs_of_pos])
      (by norm_num [abs_of_pos]) (by norm_num [abs_lt])]
    norm_num
  have harg : round64 (-1 / 8) = -1 / 8 := by
    rw [round64_eq (-1 / 8) (-4503599627370496) (-55) (by norm_num) (by norm_num [abs_of_pos])
      (by norm_num [abs_of_pos]) (by norm_num [abs_lt])]
    norm_num
  have hTp : round64 (5734161139222659 / 2 ^ 57 * (7948825443271202 / 2 ^ 53)) = 5060379444284952 / 2 ^ 57 := by
    rw [round64_eq (5734161139222659 / 2 ^ 57 * (7948825443271202 / 2 ^ 53)) (5060379444284952) (-57) (by norm_num) (by norm_num [abs_of_pos])
      (by norm_num [abs_of_pos]) (by norm_num [abs_lt])]
    norm_num
  have hE : round64 (4521560333561223 / 2 ^ 38 * (5060379444284952 / 2 ^ 57)) = 5080560631764413 / 2 ^ 43 := by
    rw [round64_eq (4521560333561223 / 2 ^ 38 * (5060379444284952 / 2 ^ 57)) (5080560631764413) (-43) (by norm_num) (by norm_num [abs_of_pos])
      (by norm_num [abs_of_pos]) (by norm_num [abs_lt])]
    norm_num
  have he1 : exp_values (-1 / 8) = 7948825443271202 / 2 ^ 53 := by
    rw [exp_values, if_pos rfl]
  simp only [exponent_binary64, Tp_binary64, toBinary64, mul64, div64, add64, Alphas_xg,
    constEngine, EnableLookupTable, ofMode, M_PI64]
  rw [hpi, h3, h6, h100, h4a, h4, h1, h1, hp2, hq, hqr, hqrr, hg, h2pi, h2piB, hinv, hnb, h8,
    harg, he1, hTp, hE]

/-- The values held by `exp_values` against the real exponential: the first lies within half a
spacing, `2^-54`, of `exp(-1/8)`, so it is the correctly rounded double; at the second argument
the real exponential is below `2^-54`, and so is the value held. -/
theorem exp_values_sound :
    |((exp_values (-1 / 8) : ℚ) : ℝ) - Real.exp (-1 / 8)| < 1 / 2 ^ 54 ∧
    Real.exp (-((5080560631764413 / 2 ^ 43 : ℚ) : ℝ)) < 1 / 2 ^ 54 ∧
    exp_values (-(5080560631764413 / 2 ^ 43)) < 1 / 2 ^ 54 := by
  refine ⟨?_, ?_, ?_⟩
  · have hv : exp_values (-1 / 8) = 7948825443271202 / 2 ^ 53 := by
      rw [exp_values, if_pos rfl]
    rw [hv]
    push_cast
    have hx : |(-1 / 8 : ℝ)| ≤ 1 := by
      rw [abs_le]
      constructor <;> norm_num
    have hb := @Real.exp_bound (-1 / 8) hx 14 (by norm_num)
    have hs : (∑ m ∈ Finset.range 14, (-1 / 8 : ℝ) ^ m / (m.factorial : ℝ))
        = 3021087730152526365031 / 3423340888001504870400 := by
      simp only [Finset.sum_range_succ, Finset.sum_range_zero, Nat.factorial]
      norm_num
    have he : |(-1 / 8 : ℝ)| ^ 14 * (((14 : ℕ).succ : ℝ) / ((Nat.factorial 14 : ℝ) * (14 : ℕ)))
        < 1 / 10 ^ 22 := by
      rw [abs_of_neg (by norm_num)]
      simp only [Nat.factorial]
      norm_num
    rw [hs] at hb
    have hb2 := lt_of_le_of_lt hb he
    rw [abs_lt] at hb2 ⊢
    obtain ⟨h1, h2⟩ := hb2
    constructor <;> linarith
  · push_cast
    have h1 : Real.exp (-(1 : ℝ)) ≤ 1 / 2 := by
      rw [Real.exp_neg, inv_eq_one_div]
      have h2 : (2 : ℝ) ≤ Real.exp 1 := by
        have := Real.add_one_le_exp (1 : ℝ)
        linarith
      exact one_div_le_one_div_of_le (by norm_num) h2
    have h3 : Real.exp (-(5080560631764413 / 2 ^ 43 : ℝ))
        ≤ Real.exp ((55 : ℕ) * (-(1 : ℝ))) := by
      apply Real.exp_le_exp.mpr
      norm_num
    rw [Real.exp_nat_mul] at h3
    have h4 : Real.exp (-(1 : ℝ)) ^ 55 ≤ (1 / 2 : ℝ) ^ 55 :=
      pow_le_pow_left₀ (Real.exp_pos _).le h1 55
    have h5 : (1 / 2 : ℝ) ^ 55 < 1 / 2 ^ 54 := by norm_num
    linarith
  · rw [exp_values, if_neg (by norm_num), if_pos rfl]
    norm_num

end Lemmas

/-! ### The amplitude formula -/

/-- C1: for every instance with saturation = false and every `r ≠ 0`, `xbj`, `b`, the value
`N(r, xbj, b)` is the exponent `(π² / (2·Nc)) · r² · Alphas_xg(xbj, mu0² + C/r²) · Tp(b)` itself,
with `Alphas_xg` the engine's `alphasxG` value (an arbitrary function `dg.alphasxG`); no
exponential transform is applied. The divisor `r*r` of the hard scale is non-zero. -/
theorem N_linearized_eq_exponent (dg : Dglap ℝ T) (d : DipoleAmplitude ℝ T)
    (hs : d.GetSaturation = false) (r xbj b : ℝ) (hr : r ≠ 0) :
    r * r ≠ 0 ∧
    N Real.exp Real.pi dg d r xbj b =
      (Real.pi ^ 2 / (2 * (d.Nc : ℝ))) * r ^ 2
        * dg.alphasxG d.cppdglap xbj (d.mu0 ^ 2 + d.C / r ^ 2) d.mu0 0 d.A_g d.lambda_g 0 0
        * (1 / (2 * Real.pi * d.B_p) * Real.exp (-b ^ 2 / (2 * d.B_p))) :=
  ⟨mul_ne_zero hr hr, N_of_saturation_false Real.exp Real.pi dg d hs r xbj b⟩

/-- The theorem `N_linearized_eq_exponent` at the LINEARIZED preset, a constant engine and
`(r, xbj, b) = (1, 0.01, 0)`. -/
theorem N_linearized_eq_exponent_witness :
    ((ofMode Real.sqrt .MZ_IPNONSAT : DipoleAmplitude ℝ (ℝ × Int × ℝ × ℝ × ℝ × ℝ)).GetSaturation
        = false ∧ (1 : ℝ) ≠ 0) ∧
    N Real.exp Real.pi (constEngine 0.2 1) (ofMode Real.sqrt .MZ_IPNONSAT) 1 0.01 0
      = Real.pi ^ 2 / (2 * 3) * 1 ^ 2 * 1 * (1 / (2 * Real.pi * 4) * Real.exp 0) :=
  ⟨⟨rfl, one_ne_zero⟩,
    (N_linearized_eq_exponent (constEngine 0.2 1) (ofMode Real.sqrt .MZ_IPNONSAT) rfl
      1 0.01 0 one_ne_zero).2.trans (by norm_num [ofMode, constEngine])⟩

/-- C2, as stated, fails in the arithmetic of the code: on the SATURATED preset with the lookup
table enabled and a unit engine value, at the driver point `(r, x, b) = (100, 0.001, 1)`, the
saturation flag is on, `r ≠ 0`, the exponent is the double `577.5928720782318 ≥ 0`, and
`1.0 - std::exp(-exponent)` is exactly `1`: the value of `N` is not below `1`. -/
theorem N_binary64_reaches_one :
    (EnableLookupTable (constEngine 0.2 1) (ofMode sqrt_value .MZ_IPSAT)).GetSaturation = true ∧
    (100 : ℚ) ≠ 0 ∧
    exponent_binary64 exp_values (constEngine 0.2 1)
        (EnableLookupTable (constEngine 0.2 1) (ofMode sqrt_value .MZ_IPSAT)) 100 0.001 1
      = 5080560631764413 / 2 ^ 43 ∧
    0 ≤ exponent_binary64 exp_values (constEngine 0.2 1)
        (EnableLookupTable (constEngine 0.2 1) (ofMode sqrt_value .MZ_IPSAT)) 100 0.001 1 ∧
    N_binary64 exp_values (constEngine 0.2 1)
        (EnableLookupTable (constEngine 0.2 1) (ofMode sqrt_value .MZ_IPSAT)) 100 0.001 1 = 1 ∧
    ¬ N_binary64 exp_values (constEngine 0.2 1)
        (EnableLookupTable (constEngine 0.2 1) (ofMode sqrt_value .MZ_IPSAT)) 100 0.001 1 < 1 := by
  have hE := exponent_binary64_driver
  have hN : N_binary64 exp_values (constEngine 0.2 1)
      (EnableLookupTable (constEngine 0.2 1) (ofMode sqrt_value .MZ_IPSAT)) 100 0.001 1 = 1 := by
    have hsat : (EnableLookupTable (constEngine (0.2 : ℚ) 1)
        (ofMode sqrt_value .MZ_IPSAT)).saturation = true := rfl
    have hv : exp_values (-(5080560631764413 / 2 ^ 43))
        = 7365106447515123 / 2 ^ 886 := by
      rw [exp_values, if_neg (by norm_num), if_pos rfl]
    have h1 : (1.0 : ℚ) = 1 := by norm_num
    simp only [N_binary64, hE, hsat, sub64, hv, h1]
    exact round64_one_sub _ (by norm_num) (by norm_num)
  refine ⟨rfl, by norm_num, hE, ?_, hN, ?_⟩
  · rw [hE]
    norm_num
  · rw [hN]
    norm_num

/-- C2, amended: for every instance with saturation = true and every `r ≠ 0`, `xbj`, `b`, the
value `N(r, xbj, b)` is `1 - exp(-exponent)` with the exponent of the spec (`spec_exponent`),
and whenever that exponent is non-negative, `0 ≤ N(r, xbj, b) ≤ 1`. The closed bound also holds
for the code's double arithmetic (`N_binary64`, with any `std::exp` whose values at
non-positive arguments lie in `[0, 1]`, and the divisor `r*r` non-zero), where the value `1` is
attained. -/
theorem N_saturated_eq_and_closed_bounds {T64 : Type} (dg : Dglap ℝ T)
    (d : DipoleAmplitude ℝ T) (hs : d.GetSaturation = true) (r xbj b : ℝ) (hr : r ≠ 0)
    (exp64 : ℚ → ℚ) (hexp : ∀ y : ℚ, y ≤ 0 → 0 ≤ exp64 y ∧ exp64 y ≤ 1)
    (dg64 : Dglap ℚ T64) (d64 : DipoleAmplitude ℚ T64) (hs64 : d64.GetSaturation = true)
    (r64 xbj64 b64 : ℚ) (hr64 : mul64 (round64 r64) (round64 r64) ≠ 0) :
    (r * r ≠ 0 ∧
      N Real.exp Real.pi dg d r xbj b
        = 1 - Real.exp (-spec_exponent Real.exp Real.pi dg d r xbj b) ∧
      (0 ≤ spec_exponent Real.exp Real.pi dg d r xbj b →
        0 ≤ N Real.exp Real.pi dg d r xbj b ∧ N Real.exp Real.pi dg d r xbj b ≤ 1)) ∧
    (mul64 (round64 r64) (round64 r64) ≠ 0 ∧
      N_binary64 exp64 dg64 d64 r64 xbj64 b64
        = sub64 1.0 (exp64 (-exponent_binary64 exp64 dg64 d64 r64 xbj64 b64)) ∧
      (0 ≤ exponent_binary64 exp64 dg64 d64 r64 xbj64 b64 →
        0 ≤ N_binary64 exp64 dg64 d64 r64 xbj64 b64 ∧
          N_binary64 exp64 dg64 d64 r64 xbj64 b64 ≤ 1)) := by
  have hN := N_of_saturation_true Real.exp Real.pi dg d hs r xbj b
  have hN64 : N_binary64 exp64 dg64 d64 r64 xbj64 b64
      = sub64 1.0 (exp64 (-exponent_binary64 exp64 dg64 d64 r64 xbj64 b64)) := by
    have hsat : d64.saturation = true := hs64
    simp [N_binary64, hsat]
  refine ⟨⟨mul_ne_zero hr hr, hN, fun hE => ?_⟩, hr64, hN64, fun hE => ?_⟩
  · rw [hN]
    have hle : Real.exp (-spec_exponent Real.exp Real.pi dg d r xbj b) ≤ 1 :=
      Real.exp_le_one_iff.mpr (by linarith)
    have hpos := Real.exp_pos (-spec_exponent Real.exp Real.pi dg d r xbj b)
    constructor <;> linarith
  · obtain ⟨h0, h1⟩ := hexp (-exponent_binary64 exp64 dg64 d64 r64 xbj64 b64) (by linarith)
    have hone : (1.0 : ℚ) = 1 := by norm_num
    rw [hN64, sub64, hone]
    exact ⟨round64_nonneg _ (by linarith), round64_le_one _ (by linarith) (by linarith)⟩

/-- The theorem `N_saturated_eq_and_closed_bounds` on the SATURATED preset with the lookup table
enabled and a constant engine: over the reals at the driver point `(1.1e-6, 0.01, 0)`, in
binary64 at the driver point `(100, 0.001, 1)` with the `std::exp` values `exp_values`. -/
theorem N_saturated_eq_and_closed_bounds_witness :
    ((EnableLookupTable (constEngine (0.2 : ℝ) 1) (ofMode Real.sqrt .MZ_IPSAT)).GetSaturation
        = true ∧
      (1.1e-6 : ℝ) ≠ 0 ∧
      0 ≤ N Real.exp Real.pi (constEngine 0.2 1)
          (EnableLookupTable (constEngine 0.2 1) (ofMode Real.sqrt .MZ_IPSAT)) 1.1e-6 0.01 0 ∧
      N Real.exp Real.pi (constEngine 0.2 1)
          (EnableLookupTable (constEngine 0.2 1) (ofMode Real.sqrt .MZ_IPSAT)) 1.1e-6 0.01 0 ≤ 1) ∧
    ((∀ y : ℚ, y ≤ 0 → 0 ≤ exp_values y ∧ exp_values y ≤ 1) ∧
      (EnableLookupTable (constEngine (0.2 : ℚ) 1) (ofMode sqrt_value .MZ_IPSAT)).GetSaturation
        = true ∧
      mul64 (round64 100) (round64 100) ≠ 0 ∧
      0 ≤ N_binary64 exp_values (constEngine 0.2 1)
          (EnableLookupTable (constEngine 0.2 1) (ofMode sqrt_value .MZ_IPSAT)) 100 0.001 1 ∧
      N_binary64 exp_values (constEngine 0.2 1)
          (EnableLookupTable (constEngine 0.2 1) (ofMode sqrt_value .MZ_IPSAT)) 100 0.001 1 ≤ 1) := by
  have hNc : (0 : Int) ≤
      (EnableLookupTable (constEngine (0.2 : ℝ) 1) (ofMode Real.sqrt .MZ_IPSAT)).Nc := by
    simp [EnableLookupTable, ofMode]
  have hB : (0 : ℝ) ≤
      (EnableLookupTable (constEngine (0.2 : ℝ) 1) (ofMode Real.sqrt .MZ_IPSAT)).B_p := by
    norm_num [EnableLookupTable, ofMode]
  have hr : (1.1e-6 : ℝ) ≠ 0 := by norm_num
  have hexp : ∀ y : ℚ, y ≤ 0 → 0 ≤ exp_values y ∧ exp_values y ≤ 1 := by
    intro y _
    unfold exp_values
    split_ifs <;> norm_num
  have h100 : round64 100 = 100 := by
    rw [round64_eq 100 7036874417766400 (-46) (by norm_num) (by norm_num [abs_of_pos])
      (by norm_num [abs_of_pos]) (by norm_num [abs_lt])]
    norm_num
  have hmul : mul64 (round64 100) (round64 100) ≠ 0 := by
    rw [h100, mul64, round64_eq (100 * 100) 5497558138880000 (-39) (by norm_num)
      (by norm_num [abs_of_pos]) (by norm_num [abs_of_pos]) (by norm_num [abs_lt])]
    norm_num
  have hE64 : 0 ≤ exponent_binary64 exp_values (constEngine 0.2 1)
      (EnableLookupTable (constEngine 0.2 1) (ofMode sqrt_value .MZ_IPSAT)) 100 0.001 1 := by
    rw [exponent_binary64_driver]
    norm_num
  have h := N_saturated_eq_and_closed_bounds (constEngine 0.2 1)
    (EnableLookupTable (constEngine 0.2 1) (ofMode Real.sqrt .MZ_IPSAT)) rfl 1.1e-6 0.01 0 hr
    exp_values hexp (constEngine 0.2 1)
    (EnableLookupTable (constEngine 0.2 1) (ofMode sqrt_value .MZ_IPSAT)) rfl 100 0.001 1 hmul
  exact ⟨⟨rfl, hr, h.1.2.2 (spec_exponent_nonneg _ _ _ _ _ hNc hB (by simp [constEngine]))⟩,
    ⟨hexp, rfl, hmul, h.2.2.2 hE64⟩⟩

/-! ### The proton profile -/

/-- C3: the profile `Tp(b) = 1/(2π·B_p) · exp(−b²/(2·B_p))` is normalised to unity over the
impact-parameter plane: for every instance with `B_p > 0` the integral over `b ∈ [0, ∞)` of
`2π·b·Tp(b)` is `1`; in particular this holds for every instance built by either constructor,
whose `B_p` is the fixed value `4`. -/
theorem Tp_normalized :
    (∀ d : DipoleAmplitude ℝ T, 0 < d.B_p →
      (∀ b, Tp Real.exp Real.pi d b = 1 / (2 * Real.pi * d.B_p) * Real.exp (-b ^ 2 / (2 * d.B_p))) ∧
      ∫ b in Set.Ici (0 : ℝ), 2 * Real.pi * b * Tp Real.exp Real.pi d b = 1) ∧
    (∀ k : Ctor ℝ, (k.run Real.sqrt : DipoleAmplitude ℝ T).B_p = 4 ∧
      ∫ b in Set.Ici (0 : ℝ), 2 * Real.pi * b * Tp Real.exp Real.pi (k.run Real.sqrt : DipoleAmplitude ℝ T) b = 1) := by
  refine ⟨fun d hB => ⟨fun b => ?_, integral_Tp_of_pos d hB⟩, fun k => ⟨B_p_run Real.sqrt k, ?_⟩⟩
  · have hb : -b * b / (2 * d.B_p) = -b ^ 2 / (2 * d.B_p) := by ring
    have h2 : (2.0 : ℝ) = 2 := by norm_num
    have h1 : (1.0 : ℝ) = 1 := by norm_num
    simp only [Tp, h2, h1, hb]
  · exact integral_Tp_of_pos _ (by rw [B_p_run]; norm_num)

/-- The theorem `Tp_normalized` at the SATURATED preset, whose `B_p` is `4 > 0`. -/
theorem Tp_normalized_witness :
    0 < (ofMode Real.sqrt .MZ_IPSAT : DipoleAmplitude ℝ Unit).B_p ∧
    ∫ b in Set.Ici (0 : ℝ),
      2 * Real.pi * b * Tp Real.exp Real.pi (ofMode Real.sqrt .MZ_IPSAT : DipoleAmplitude ℝ Unit) b
      = 1 :=
  have h : 0 < (ofMode Real.sqrt .MZ_IPSAT : DipoleAmplitude ℝ Unit).B_p := by
    norm_num [ofMode]
  ⟨h, (Tp_normalized.1 _ h).2⟩

/-! ### Construction -/

/-- C4, the code at the failing input: the explicit constructor called with `mb_ = 5.0` and
`mt_ = 180` (and the IPsat fit values for the rest) yields `GetMb() = 4.75` and `GetMt() = 175`,
not the supplied values, and hands the thresholds `(mc_, 4.75, 175)` to the coupling model; the
same holds for every supplied `mb_`, `mt_`, so the result never differs from the call with the
two optional arguments omitted. -/
theorem ofParams_overwrites_mb_mt :
    (ofParams 2.2894 1.0488 0.08289 2.1953 1.3528 5.0 180 : DipoleAmplitude ℝ T).GetMb = 4.75 ∧
    (ofParams 2.2894 1.0488 0.08289 2.1953 1.3528 5.0 180 : DipoleAmplitude ℝ T).GetMb ≠ 5.0 ∧
    (ofParams 2.2894 1.0488 0.08289 2.1953 1.3528 5.0 180 : DipoleAmplitude ℝ T).GetMt = 175 ∧
    (ofParams 2.2894 1.0488 0.08289 2.1953 1.3528 5.0 180 : DipoleAmplitude ℝ T).GetMt ≠ 180 ∧
    (∀ C_ mu0_ lambda_g_ A_g_ mc_ mb_ mt_ : ℝ,
      (ofParams C_ mu0_ lambda_g_ A_g_ mc_ mb_ mt_ : DipoleAmplitude ℝ T).GetMb = 4.75 ∧
      (ofParams C_ mu0_ lambda_g_ A_g_ mc_ mb_ mt_ : DipoleAmplitude ℝ T).GetMt = 175 ∧
      (ofParams C_ mu0_ lambda_g_ A_g_ mc_ mb_ mt_ : DipoleAmplitude ℝ T).alphas.mc = mc_ ∧
      (ofParams C_ mu0_ lambda_g_ A_g_ mc_ mb_ mt_ : DipoleAmplitude ℝ T).alphas.mb = 4.75 ∧
      (ofParams C_ mu0_ lambda_g_ A_g_ mc_ mb_ mt_ : DipoleAmplitude ℝ T).alphas.mt = 175 ∧
      (ofParams C_ mu0_ lambda_g_ A_g_ mc_ mb_ mt_ : DipoleAmplitude ℝ T)
        = ofParamsDefault C_ mu0_ lambda_g_ A_g_ mc_) := by
  refine ⟨rfl, ?_, rfl, ?_, fun _ _ _ _ _ _ _ => ⟨rfl, rfl, rfl, rfl, rfl, rfl⟩⟩
  · norm_num [ofParams, GetMb, Id.run]
  · norm_num [ofParams, GetMt, Id.run]

/-- C5: the MZ_IPSAT preset has `GetSaturation() = true` and the MZ_IPNONSAT preset has
`GetSaturation() = false`; both presets have `mu0 = sqrt(1.1)` (so `mu0² = 1.1`), `B_p = 4.0`,
`Nc = 3`, `mb = 4.75`, `mt = 175`; their `(C, lambda_g, A_g, mc)` are
`(2.2894, 0.08289, 2.1953, 1.3528)` and `(4.2974, -0.006657, 3.0391, 1.3504)`, which differ. -/
theorem presets :
    (ofMode Real.sqrt .MZ_IPSAT : DipoleAmplitude ℝ T).GetSaturation = true ∧
    (ofMode Real.sqrt .MZ_IPNONSAT : DipoleAmplitude ℝ T).GetSaturation = false ∧
    (∀ m : IPSAT_PARAMETRIZATION,
      (ofMode Real.sqrt m : DipoleAmplitude ℝ T).GetMu0 = Real.sqrt 1.1 ∧
      (ofMode Real.sqrt m : DipoleAmplitude ℝ T).GetMu0 ^ 2 = 1.1 ∧
      (ofMode Real.sqrt m : DipoleAmplitude ℝ T).B_p = 4.0 ∧
      (ofMode Real.sqrt m : DipoleAmplitude ℝ T).Nc = 3 ∧
      (ofMode Real.sqrt m : DipoleAmplitude ℝ T).GetMb = 4.75 ∧
      (ofMode Real.sqrt m : DipoleAmplitude ℝ T).GetMt = 175) ∧
    ((ofMode Real.sqrt .MZ_IPSAT : DipoleAmplitude ℝ T).C,
      (ofMode Real.sqrt .MZ_IPSAT : DipoleAmplitude ℝ T).GetLambdaG,
      (ofMode Real.sqrt .MZ_IPSAT : DipoleAmplitude ℝ T).GetAg,
      (ofMode Real.sqrt .MZ_IPSAT : DipoleAmplitude ℝ T).GetMc)
        = ((2.2894 : ℝ), (0.08289 : ℝ), (2.1953 : ℝ), (1.3528 : ℝ)) ∧
    ((ofMode Real.sqrt .MZ_IPNONSAT : DipoleAmplitude ℝ T).C,
      (ofMode Real.sqrt .MZ_IPNONSAT : DipoleAmplitude ℝ T).GetLambdaG,
      (ofMode Real.sqrt .MZ_IPNONSAT : DipoleAmplitude ℝ T).GetAg,
      (ofMode Real.sqrt .MZ_IPNONSAT : DipoleAmplitude ℝ T).GetMc)
        = ((4.2974 : ℝ), (-0.006657 : ℝ), (3.0391 : ℝ), (1.3504 : ℝ)) ∧
    ((ofMode Real.sqrt .MZ_IPSAT : DipoleAmplitude ℝ T).C,
      (ofMode Real.sqrt .MZ_IPSAT : DipoleAmplitude ℝ T).GetLambdaG,
      (ofMode Real.sqrt .MZ_IPSAT : DipoleAmplitude ℝ T).GetAg,
      (ofMode Real.sqrt .MZ_IPSAT : DipoleAmplitude ℝ T).GetMc)
        ≠ ((ofMode Real.sqrt .MZ_IPNONSAT : DipoleAmplitude ℝ T).C,
          (ofMode Real.sqrt .MZ_IPNONSAT : DipoleAmplitude ℝ T).GetLambdaG,
          (ofMode Real.sqrt .MZ_IPNONSAT : DipoleAmplitude ℝ T).GetAg,
          (ofMode Real.sqrt .MZ_IPNONSAT : DipoleAmplitude ℝ T).GetMc) := by
  refine ⟨rfl, rfl, fun m => ?_, rfl, rfl, ?_⟩
  · have hmu : (ofMode Real.sqrt m : DipoleAmplitude ℝ T).GetMu0 = Real.sqrt 1.1 := by
      cases m <;> rfl
    refine ⟨hmu, ?_, ?_, ?_, ?_, ?_⟩
    · rw [hmu]
      exact Real.sq_sqrt (by norm_num)
    · cases m <;> rfl
    · cases m <;> rfl
    · cases m <;> rfl
    · cases m <;> rfl
  · intro h
    have hC := congrArg Prod.fst h
    norm_num [ofMode] at hC

/-! ### The evolved-gluon queries -/

/-- C6: for every instance a client can obtain (a constructor call followed by any public
calls) and every `x`, `musqr`, the value `xg(x, musqr)` is `Alphas_xg(x, musqr) /
Alphas(sqrt(musqr))`: the call passes the engine the initial condition that `Alphas_xg` passes,
and the engine divides by the coupling model that `Alphas` queries. -/
theorem xg_eq_Alphas_xg_div_Alphas (sqrt exp : F → F) (M_PI : F) (dg : Dglap F T)
    (k : Ctor F) (cs : List (Call F)) (x musqr : F) :
    xg sqrt dg (build sqrt exp M_PI dg k cs) x musqr
      = Alphas_xg dg (build sqrt exp M_PI dg k cs) x musqr
        / Alphas dg (build sqrt exp M_PI dg k cs) (sqrt musqr) := by
  have hbound := (consistent_build sqrt exp M_PI dg k cs).1
  simp only [xg, EvolutionLO_gluon.xG, Alphas_xg, Alphas, hbound]

/-- C10: `Alphas_xg(x, musqr)` is the engine's `alphasxG(x, musqr, mu0, 0, A_g, lambda_g, 0, 0)`
with the instance's own `mu0`, `A_g`, `lambda_g`; `EnableLookupTable` is
`generateLookupTable(mu0, 0, A_g, lambda_g, 0, 0)` followed by `useLookupTable(true)`, so that
afterwards the table is the one for that initial condition and is in use; and in every instance
a client can obtain, a table, if present or in use, is the one for the initial condition that
`Alphas_xg` queries. -/
theorem gluon_only_initial_condition (sqrt exp : F → F) (M_PI : F) (dg : Dglap F T) :
    (∀ (d : DipoleAmplitude F T) (x musqr : F),
      Alphas_xg dg d x musqr = dg.alphasxG d.cppdglap x musqr d.mu0 0 d.A_g d.lambda_g 0 0) ∧
    (∀ d : DipoleAmplitude F T,
      (EnableLookupTable dg d).cppdglap
        = (d.cppdglap.generateLookupTable dg d.mu0 0 d.A_g d.lambda_g 0 0).useLookupTable true ∧
      (EnableLookupTable dg d).cppdglap.table
        = some (dg.buildTable d.cppdglap.alphas d.mu0 0 d.A_g d.lambda_g 0 0) ∧
      (EnableLookupTable dg d).cppdglap.tableInUse = true ∧
      (EnableLookupTable dg d).GetMu0 = d.mu0 ∧
      (EnableLookupTable dg d).GetAg = d.A_g ∧
      (EnableLookupTable dg d).GetLambdaG = d.lambda_g) ∧
    (∀ (k : Ctor F) (cs : List (Call F)),
      ((build sqrt exp M_PI dg k cs).cppdglap.table = none ∨
        (build sqrt exp M_PI dg k cs).cppdglap.table
          = some (dg.buildTable (build sqrt exp M_PI dg k cs).alphas
              (build sqrt exp M_PI dg k cs).mu0 0 (build sqrt exp M_PI dg k cs).A_g
              (build sqrt exp M_PI dg k cs).lambda_g 0 0)) ∧
      ((build sqrt exp M_PI dg k cs).cppdglap.tableInUse = false ∨
        (build sqrt exp M_PI dg k cs).cppdglap.table
          = some (dg.buildTable (build sqrt exp M_PI dg k cs).alphas
              (build sqrt exp M_PI dg k cs).mu0 0 (build sqrt exp M_PI dg k cs).A_g
              (build sqrt exp M_PI dg k cs).lambda_g 0 0))) :=
  ⟨fun _ _ _ => rfl, fun _ => ⟨rfl, rfl, rfl, rfl, rfl, rfl⟩,
    fun k cs => (consistent_build sqrt exp M_PI dg k cs).2⟩

/-! ### Invalid dipole sizes -/

/-- C7, as stated, fails: on the SATURATED preset with a constant engine the call
`N(-1, 0.01, 0)` has `r ≤ 0`, yet it signals nothing and returns the number
`1 - exp(-π/48)`, the value of `N(1, 0.01, 0)`. -/
theorem N_call_negative_r_returns :
    (-1 : ℝ) ≤ 0 ∧
    N_call Real.exp Real.pi (constEngine 0.2 1) (ofMode Real.sqrt .MZ_IPSAT) (-1) 0.01 0
        (neg_ne_zero.mpr one_ne_zero)
      = Except.ok (1 - Real.exp (-(Real.pi / 48))) ∧
    ¬ ∃ e : String,
      N_call Real.exp Real.pi (constEngine 0.2 1) (ofMode Real.sqrt .MZ_IPSAT) (-1) 0.01 0
          (neg_ne_zero.mpr one_ne_zero)
        = Except.error e := by
  have hval : N Real.exp Real.pi (constEngine 0.2 1) (ofMode Real.sqrt .MZ_IPSAT) (-1) 0.01 0
      = 1 - Real.exp (-(Real.pi / 48)) := by
    rw [N_of_saturation_true _ _ _ _ rfl]
    congr 2
    have hpi := Real.pi_ne_zero
    simp only [spec_exponent, constEngine, ofMode]
    norm_num
    field_simp
    ring
  refine ⟨by norm_num, by rw [N_call, hval], ?_⟩
  rintro ⟨e, he⟩
  simp [N_call] at he

/-- C7, amended: `N` makes no check on the sign of `r`: for every `r ≠ 0` (in particular every
`r < 0`) and every `xbj`, `b` the call signals no condition and returns the value of the
formula, the exponent of the spec or `1 - exp(-exponent)` under saturation; `r` enters only
through `r*r`, so `N(-r, xbj, b)` is `N(r, xbj, b)`. Nothing is said of `r = 0`. -/
theorem N_call_of_ne_zero (exp : F → F) (M_PI : F) (dg : Dglap F T)
    (d : DipoleAmplitude F T) (r xbj b : F) (hr : r ≠ 0) :
    N_call exp M_PI dg d r xbj b hr
      = Except.ok (if d.GetSaturation = true
          then 1 - exp (-spec_exponent exp M_PI dg d r xbj b)
          else spec_exponent exp M_PI dg d r xbj b) ∧
    (∀ e : String, N_call exp M_PI dg d r xbj b hr ≠ Except.error e) ∧
    N_call exp M_PI dg d (-r) xbj b (neg_ne_zero.mpr hr) = N_call exp M_PI dg d r xbj b hr := by
  refine ⟨?_, fun e he => ?_, ?_⟩
  · cases hs : d.saturation with
    | true => simp only [N_call, GetSaturation, hs, if_true, N_of_saturation_true exp M_PI dg d hs]
    | false =>
      simp only [N_call, GetSaturation, hs, N_of_saturation_false exp M_PI dg d hs]
      rfl
  · simp [N_call] at he
  · simp only [N_call, N_neg]

/-- The theorem `N_call_of_ne_zero` at `r = -2` on the LINEARIZED preset with a constant engine:
the call returns `π/12`, the value at `r = 2`. -/
theorem N_call_of_ne_zero_witness :
    (-2 : ℝ) ≠ 0 ∧
    N_call Real.exp Real.pi (constEngine 0.2 1) (ofMode Real.sqrt .MZ_IPNONSAT) (-2) 0.01 0
        (neg_ne_zero.mpr two_ne_zero)
      = Except.ok (Real.pi / 12) ∧
    N_call Real.exp Real.pi (constEngine 0.2 1) (ofMode Real.sqrt .MZ_IPNONSAT) (-(-2)) 0.01 0
        (neg_ne_zero.mpr (neg_ne_zero.mpr two_ne_zero))
      = N_call Real.exp Real.pi (constEngine 0.2 1) (ofMode Real.sqrt .MZ_IPNONSAT) (-2) 0.01 0
        (neg_ne_zero.mpr two_ne_zero) := by
  have h := N_call_of_ne_zero Real.exp Real.pi (constEngine 0.2 1)
    (ofMode Real.sqrt .MZ_IPNONSAT) (-2) 0.01 0 (neg_ne_zero.mpr two_ne_zero)
  refine ⟨neg_ne_zero.mpr two_ne_zero, h.1.trans ?_, h.2.2⟩
  have hsat : (ofMode Real.sqrt .MZ_IPNONSAT :
      DipoleAmplitude ℝ (ℝ × Int × ℝ × ℝ × ℝ × ℝ)).GetSaturation = false := rfl
  have hpi := Real.pi_ne_zero
  rw [hsat]
  simp only [spec_exponent, constEngine, ofMode]
  norm_num
  field_simp
  ring

/-! ### Immutability and the lookup table -/

/-- C8: every public call leaves the fit parameters `C, mu0, lambda_g, A_g, mc, mb, mt, B_p, Nc`
unchanged, and so does every sequence of public calls; a call other than `SetSaturation` leaves
the saturation flag unchanged, and after `SetSaturation(s)` the flag reads `s`; in particular
`EnableLookupTable` and `DisableLookupTable` change neither the parameters nor the flag. -/
theorem fit_parameters_immutable (sqrt exp : F → F) (M_PI : F) (dg : Dglap F T)
    (d : DipoleAmplitude F T) :
    (∀ c : Call F, (c.exec sqrt exp M_PI dg d).2.fitParameters = d.fitParameters) ∧
    (∀ cs : List (Call F), (runCalls sqrt exp M_PI dg cs d).fitParameters = d.fitParameters) ∧
    (∀ c : Call F, (∃ s, c = Call.SetSaturation s) ∨
      (c.exec sqrt exp M_PI dg d).2.GetSaturation = d.GetSaturation) ∧
    (∀ s : Bool, ((Call.SetSaturation s).exec sqrt exp M_PI dg d).2.GetSaturation = s) ∧
    ((EnableLookupTable dg d).fitParameters = d.fitParameters ∧
      (EnableLookupTable dg d).GetSaturation = d.GetSaturation) ∧
    ((DisableLookupTable d).fitParameters = d.fitParameters ∧
      (DisableLookupTable d).GetSaturation = d.GetSaturation) := by
  refine ⟨fun c => fitParameters_exec sqrt exp M_PI dg c d,
    fun cs => fitParameters_runCalls sqrt exp M_PI dg cs d,
    fun c => ?_, fun _ => rfl, ⟨rfl, rfl⟩, ⟨rfl, rfl⟩⟩
  cases c with
  | SetSaturation s => exact Or.inl ⟨s, rfl⟩
  | _ => exact Or.inr rfl

/-- C9: `EnableLookupTable` is idempotent: the instance (fit parameters, saturation, table
contents and table-in-use switch) after two successive calls is the instance after one call,
so every later `N(r, xbj, b)`, alone or after further public calls, is the same. -/
theorem EnableLookupTable_idempotent (sqrt exp : F → F) (M_PI : F) (dg : Dglap F T)
    (d : DipoleAmplitude F T) :
    EnableLookupTable dg (EnableLookupTable dg d) = EnableLookupTable dg d ∧
    (∀ r xbj b : F,
      N exp M_PI dg (EnableLookupTable dg (EnableLookupTable dg d)) r xbj b
        = N exp M_PI dg (EnableLookupTable dg d) r xbj b) ∧
    (∀ (cs : List (Call F)) (r xbj b : F),
      N exp M_PI dg
          (runCalls sqrt exp M_PI dg cs (EnableLookupTable dg (EnableLookupTable dg d))) r xbj b
        = N exp M_PI dg (runCalls sqrt exp M_PI dg cs (EnableLookupTable dg d)) r xbj b) := by
  have h : EnableLookupTable dg (EnableLookupTable dg d) = EnableLookupTable dg d := rfl
  exact ⟨h, fun _ _ _ => by rw [h], fun _ _ _ _ => by rw [h]⟩

end DipoleAmplitude

end MZ_ipsat
